import Mathlib

/-!
Verification of the LNPBP-2 lockscript commitment engine
(`src/bp/dbc/lockscript.rs` of rust-lnpbp).

The engine embeds a commitment to a message into a Bitcoin lock script by
tweaking a target public key and rewriting every matching key/hash leaf of
the script tree. We model public keys by their point identity (a `Nat`),
public-key hashes and tags as `Nat`, and messages as byte lists. The
external single-key tweak protocol (LNPBP-1 keyset commitment) and the
hash of a compressed public key are opaque deterministic functions, so the
definitions below are parameterized over them.
-/

namespace Lnpbp2

/-- A secp256k1 public key, identified by its curve point (encodings of the
same point compare equal, as in the Rust code's `secp256k1::PublicKey`). -/
abbrev PublicKey := Nat

/-- A 20-byte hash of the compressed serialization of a public key
(`bitcoin::PubkeyHash`). -/
abbrev PubkeyHash := Nat

/-- A single SHA256 hash of the protocol-specific tag (`sha256::Hash`). -/
abbrev Tag := Nat

/-- The message to be committed (`MSG: AsRef<[u8]>`). -/
abbrev Msg := List Nat

/-- The error taxonomy of the `bp::dbc` module, as used by the lockscript
engine: structural proof mismatch, the three lockscript validation errors,
and opaque failures passed through from the tweak delegate or the script
tree library. -/
inductive Error where
  | invalidProofStructure
  | lockscriptKeyNotFound
  | lockscriptContainsNoKeys
  | lockscriptContainsUnknownHashes
  | tweakDelegateFailure (code : Nat)
  | treeOperationFailure (code : Nat)
deriving DecidableEq, Repr

mutual
/-- A lock script, represented as a parsed miniscript-style policy tree:
public-key leaves (`pk`), public-key-hash leaves (`pk_h`), hash-preimage
leaves, timelocks, and composite operators (thresholds over a list of
children, conjunction, disjunction). The engine never interprets the tree
semantically, only traverses it. -/
inductive LockScript where
  | pk (key : PublicKey)
  | pkH (hash : PubkeyHash)
  | hashLock (image : Nat)
  | older (n : Nat)
  | thresh (k : Nat) (subs : LockScriptList)
  | and (a b : LockScript)
  | or (a b : LockScript)

/-- A list of child scripts of a threshold node. -/
inductive LockScriptList where
  | nil
  | cons (head : LockScript) (tail : LockScriptList)
end

deriving instance DecidableEq for LockScript
deriving instance DecidableEq for LockScriptList

mutual
/-- The set of unique public keys appearing at `pk` leaves of a script,
deduplicated by point identity. -/
def keySet : LockScript → Finset PublicKey
  | .pk key => {key}
  | .pkH _ => ∅
  | .hashLock _ => ∅
  | .older _ => ∅
  | .thresh _ subs => keySetList subs
  | .and a b => keySet a ∪ keySet b
  | .or a b => keySet a ∪ keySet b

/-- Key set of a list of scripts. -/
def keySetList : LockScriptList → Finset PublicKey
  | .nil => ∅
  | .cons head tail => keySet head ∪ keySetList tail
end

mutual
/-- The set of unique public-key hashes appearing at `pk_h` leaves of a
script. -/
def hashSet : LockScript → Finset PubkeyHash
  | .pk _ => ∅
  | .pkH hash => {hash}
  | .hashLock _ => ∅
  | .older _ => ∅
  | .thresh _ subs => hashSetList subs
  | .and a b => hashSet a ∪ hashSet b
  | .or a b => hashSet a ∪ hashSet b

/-- Hash set of a list of scripts. -/
def hashSetList : LockScriptList → Finset PubkeyHash
  | .nil => ∅
  | .cons head tail => hashSet head ∪ hashSetList tail
end

mutual
/-- Modelled from the spec: the script-tree library's
`replace_pubkeys_and_hashes` rewrite primitive (`crate::bp::scripts`, not
under `src/`): applies a key rule to every `pk` leaf and a hash rule to
every `pk_h` leaf, recursing into all composite nodes, never altering the
tree shape. The rules supplied by the engine always return a replacement,
so the structural-failure signal of the Rust primitive does not arise. -/
def replace_pubkeys_and_hashes (fk : PublicKey → PublicKey) (fh : PubkeyHash → PubkeyHash) :
    LockScript → LockScript
  | .pk key => .pk (fk key)
  | .pkH hash => .pkH (fh hash)
  | .hashLock image => .hashLock image
  | .older n => .older n
  | .thresh k subs => .thresh k (replaceList fk fh subs)
  | .and a b => .and (replace_pubkeys_and_hashes fk fh a) (replace_pubkeys_and_hashes fk fh b)
  | .or a b => .or (replace_pubkeys_and_hashes fk fh a) (replace_pubkeys_and_hashes fk fh b)

/-- Rewrite applied to each element of a list of scripts. -/
def replaceList (fk : PublicKey → PublicKey) (fh : PubkeyHash → PubkeyHash) :
    LockScriptList → LockScriptList
  | .nil => .nil
  | .cons head tail => .cons (replace_pubkeys_and_hashes fk fh head) (replaceList fk fh tail)
end

mutual
/-- The shape of a script: the tree with every `pk` and `pk_h` leaf value
erased (set to 0). Two scripts have equal `shape` exactly when they have
the same operator structure and agree on every non-key, non-hash leaf. -/
def shape : LockScript → LockScript
  | .pk _ => .pk 0
  | .pkH _ => .pkH 0
  | .hashLock image => .hashLock image
  | .older n => .older n
  | .thresh k subs => .thresh k (shapeList subs)
  | .and a b => .and (shape a) (shape b)
  | .or a b => .or (shape a) (shape b)

/-- Shape of a list of scripts. -/
def shapeList : LockScriptList → LockScriptList
  | .nil => .nil
  | .cons head tail => .cons (shape head) (shapeList tail)
end

mutual
/-- The values of the `pk` leaves of a script, in traversal order, with
multiplicity (unlike `keySet`, which deduplicates). -/
def keyLeaves : LockScript → List PublicKey
  | .pk key => [key]
  | .pkH _ => []
  | .hashLock _ => []
  | .older _ => []
  | .thresh _ subs => keyLeavesList subs
  | .and a b => keyLeaves a ++ keyLeaves b
  | .or a b => keyLeaves a ++ keyLeaves b

/-- Key leaves of a list of scripts. -/
def keyLeavesList : LockScriptList → List PublicKey
  | .nil => []
  | .cons head tail => keyLeaves head ++ keyLeavesList tail
end

mutual
/-- The values of the `pk_h` leaves of a script, in traversal order, with
multiplicity. -/
def hashLeaves : LockScript → List PubkeyHash
  | .pk _ => []
  | .pkH hash => [hash]
  | .hashLock _ => []
  | .older _ => []
  | .thresh _ subs => hashLeavesList subs
  | .and a b => hashLeaves a ++ hashLeaves b
  | .or a b => hashLeaves a ++ hashLeaves b

/-- Hash leaves of a list of scripts. -/
def hashLeavesList : LockScriptList → List PubkeyHash
  | .nil => []
  | .cons head tail => hashLeaves head ++ hashLeavesList tail
end

/-- Modelled from the spec: the script-tree library's
`extract_pubkey_hash_set` (`crate::bp::scripts`, not under `src/`): walks
the tree once, collecting the set K of unique keys at key leaves and the
set H of unique hashes at hash leaves; per the engine's own documentation
("If no public keys were found fail the procedure") and the spec's no-keys
rejection, it fails with `LockscriptContainsNoKeys` when K is empty, and
returns (K, H) otherwise. -/
def extract_pubkey_hash_set (s : LockScript) :
    Except Error (Finset PublicKey × Finset PubkeyHash) :=
  if keySet s = ∅ then .error .lockscriptContainsNoKeys
  else .ok (keySet s, hashSet s)

/-- The container of the lockscript commitment scheme: the script, the
target public key and the hashed protocol tag (`LockscriptContainer`). -/
structure LockscriptContainer where
  script : LockScript
  pubkey : PublicKey
  tag : Tag
deriving DecidableEq

/-- Modelled from the spec: the `ScriptInfo` tagged variant of the proof
(`bp::dbc`, not under `src/`) selects the script kind; only the lockscript
variant is populated by this engine, and at least one other kind exists in
the variant set. -/
inductive ScriptInfo where
  | plainKey
  | lockScript (script : LockScript)
deriving DecidableEq

/-- The minimal public witness (`Proof`): the script-kind variant and the
target public key. -/
structure Proof where
  script_info : ScriptInfo
  pubkey : PublicKey
deriving DecidableEq

/-- `Container::reconstruct` for `LockscriptContainer`: rebuilds the
container from a proof whose `script_info` is the lockscript variant,
taking the supplement as the tag; fails with `InvalidProofStructure` on
any other variant. -/
def LockscriptContainer.reconstruct (proof : Proof) (supplement : Tag) (_host : Option Unit) :
    Except Error LockscriptContainer :=
  match proof.script_info with
  | .lockScript script => .ok ⟨script, proof.pubkey, supplement⟩
  | _ => .error .invalidProofStructure

/-- `Container::deconstruct` for `LockscriptContainer`: projects the
container into its proof (lockscript variant plus key) and its tag as the
supplement. -/
def LockscriptContainer.deconstruct (c : LockscriptContainer) : Proof × Tag :=
  (⟨.lockScript c.script, c.pubkey⟩, c.tag)

/-- `Container::to_proof` for `LockscriptContainer`. -/
def LockscriptContainer.to_proof (c : LockscriptContainer) : Proof :=
  ⟨.lockScript c.script, c.pubkey⟩

/-- `Container::into_proof` for `LockscriptContainer`. -/
def LockscriptContainer.into_proof (c : LockscriptContainer) : Proof :=
  ⟨.lockScript c.script, c.pubkey⟩

/-- The external LNPBP-1 keyset tweak protocol
(`LNPBP2Commitment::embed_commit` over a `KeysetContainer`): an opaque
deterministic function of the target key, the key set, the tag and the
message, which may fail opaquely. -/
abbrev TweakDelegate :=
  PublicKey → Finset PublicKey → Tag → Msg → Except Error PublicKey

/-- `LockscriptCommitment::embed_commit`, translated clause by clause from
`src/bp/dbc/lockscript.rs`: compute the hash of the target key; extract
the key and hash sets of the script; require the target key to be a
member of the key set (`LockscriptKeyNotFound` otherwise); compute the
hashes of all extracted keys; run the Rust code's unknown-hash check
`hashes.into_iter().find(|hash| !key_hashes.contains(hash))
.ok_or(Error::LockscriptContainsUnknownHashes)?`, which errors exactly
when `find` returns `None`, i.e. when every extracted hash is the hash of
an extracted key; delegate to the keyset tweak protocol; rewrite the tree,
replacing each key leaf equal to the target key by the tweaked key and
each hash leaf equal to the target key's hash by the tweaked key's hash.
The function is parameterized by the tweak delegate `t` and the
compressed-pubkey hash function `pkh`. -/
def embed_commit (t : TweakDelegate) (pkh : PublicKey → PubkeyHash)
    (container : LockscriptContainer) (msg : Msg) : Except Error LockScript :=
  let original_hash := pkh container.pubkey
  match extract_pubkey_hash_set container.script with
  | .error e => .error e
  | .ok (keys, hashes) =>
    if container.pubkey ∈ keys then
      let key_hashes : Finset PubkeyHash := keys.image pkh
      if ∀ h ∈ hashes, h ∈ key_hashes then
        .error .lockscriptContainsUnknownHashes
      else
        match t container.pubkey keys container.tag msg with
        | .error e => .error e
        | .ok tweaked_pubkey =>
          let tweaked_hash := pkh tweaked_pubkey
          .ok (replace_pubkeys_and_hashes
                (fun pubkey => if pubkey = container.pubkey then tweaked_pubkey else pubkey)
                (fun hash => if hash = original_hash then tweaked_hash else hash)
                container.script)
    else .error .lockscriptKeyNotFound

/-- Modelled from the spec: `EmbedCommitVerify::verify`
(`crate::commit_verify`, not under `src/`): recomputes
`embed_commit(container, message)` and checks exact structural equality
against the candidate commitment. -/
def verify (t : TweakDelegate) (pkh : PublicKey → PubkeyHash)
    (commitment : LockScript) (container : LockscriptContainer) (msg : Msg) : Bool :=
  match embed_commit t pkh container msg with
  | .ok c => decide (c = commitment)
  | .error _ => false

/-- A sample deterministic tweak delegate used for concrete evaluations. -/
def sampleTweak : TweakDelegate := fun pk _ _ _ => .ok (pk + 1)

/-- A sample tweak delegate that always fails, used to show that the tweak
protocol is never consulted when validation fails. -/
def failingTweak : TweakDelegate := fun _ _ _ _ => .error (.tweakDelegateFailure 0)

/-- A sample compressed-pubkey hash function used for concrete
evaluations. -/
def samplePkh : PublicKey → PubkeyHash := fun k => k + 100

/-- A sample message used for concrete evaluations. -/
def sampleMsg : Msg := [84, 101, 115, 116]

theorem extract_ok (s : LockScript) (h : keySet s ≠ ∅) :
    extract_pubkey_hash_set s = .ok (keySet s, hashSet s) := by
  simp [extract_pubkey_hash_set, h]

mutual

theorem shape_replace (fk : PublicKey → PublicKey) (fh : PubkeyHash → PubkeyHash) :
    (s : LockScript) → shape (replace_pubkeys_and_hashes fk fh s) = shape s
  | .pk _ => rfl
  | .pkH _ => rfl
  | .hashLock _ => rfl
  | .older _ => rfl
  | .thresh k subs => by
      simp [replace_pubkeys_and_hashes, shape, shapeList_replaceList fk fh subs]
  | .and a b => by
      simp [replace_pubkeys_and_hashes, shape, shape_replace fk fh a, shape_replace fk fh b]
  | .or a b => by
      simp [replace_pubkeys_and_hashes, shape, shape_replace fk fh a, shape_replace fk fh b]

theorem shapeList_replaceList (fk : PublicKey → PublicKey) (fh : PubkeyHash → PubkeyHash) :
    (l : LockScriptList) → shapeList (replaceList fk fh l) = shapeList l
  | .nil => rfl
  | .cons head tail => by
      simp [replaceList, shapeList, shape_replace fk fh head, shapeList_replaceList fk fh tail]

end

mutual

theorem keyLeaves_replace (fk : PublicKey → PublicKey) (fh : PubkeyHash → PubkeyHash) :
    (s : LockScript) → keyLeaves (replace_pubkeys_and_hashes fk fh s) = (keyLeaves s).map fk
  | .pk _ => rfl
  | .pkH _ => rfl
  | .hashLock _ => rfl
  | .older _ => rfl
  | .thresh k subs => by
      simp [replace_pubkeys_and_hashes, keyLeaves, keyLeavesList_replaceList fk fh subs]
  | .and a b => by
      simp [replace_pubkeys_and_hashes, keyLeaves,
        keyLeaves_replace fk fh a, keyLeaves_replace fk fh b]
  | .or a b => by
      simp [replace_pubkeys_and_hashes, keyLeaves,
        keyLeaves_replace fk fh a, keyLeaves_replace fk fh b]

theorem keyLeavesList_replaceList (fk : PublicKey → PublicKey) (fh : PubkeyHash → PubkeyHash) :
    (l : LockScriptList) → keyLeavesList (replaceList fk fh l) = (keyLeavesList l).map fk
  | .nil => rfl
  | .cons head tail => by
      simp [replaceList, keyLeavesList,
        keyLeaves_replace fk fh head, keyLeavesList_replaceList fk fh tail]

end

mutual

theorem hashLeaves_replace (fk : PublicKey → PublicKey) (fh : PubkeyHash → PubkeyHash) :
    (s : LockScript) → hashLeaves (replace_pubkeys_and_hashes fk fh s) = (hashLeaves s).map fh
  | .pk _ => rfl
  | .pkH _ => rfl
  | .hashLock _ => rfl
  | .older _ => rfl
  | .thresh k subs => by
      simp [replace_pubkeys_and_hashes, hashLeaves, hashLeavesList_replaceList fk fh subs]
  | .and a b => by
      simp [replace_pubkeys_and_hashes, hashLeaves,
        hashLeaves_replace fk fh a, hashLeaves_replace fk fh b]
  | .or a b => by
      simp [replace_pubkeys_and_hashes, hashLeaves,
        hashLeaves_replace fk fh a, hashLeaves_replace fk fh b]

theorem hashLeavesList_replaceList (fk : PublicKey → PublicKey) (fh : PubkeyHash → PubkeyHash) :
    (l : LockScriptList) → hashLeavesList (replaceList fk fh l) = (hashLeavesList l).map fh
  | .nil => rfl
  | .cons head tail => by
      simp [replaceList, hashLeavesList,
        hashLeaves_replace fk fh head, hashLeavesList_replaceList fk fh tail]

end

theorem embed_commit_ok_elim (t : TweakDelegate) (pkh : PublicKey → PubkeyHash)
    (c : LockscriptContainer) (msg : Msg) (tk : PublicKey) (out : LockScript)
    (ht : t c.pubkey (keySet c.script) c.tag msg = .ok tk)
    (h : embed_commit t pkh c msg = .ok out) :
    out = replace_pubkeys_and_hashes
      (fun k => if k = c.pubkey then tk else k)
      (fun hh => if hh = pkh c.pubkey then pkh tk else hh) c.script := by
  by_cases hk : keySet c.script = ∅
  · simp [embed_commit, extract_pubkey_hash_set, hk] at h
  · by_cases hp : c.pubkey ∈ keySet c.script
    · by_cases hall : ∀ hh ∈ hashSet c.script, ∃ a ∈ keySet c.script, pkh a = hh
      · simp [embed_commit, extract_ok _ hk, hp] at h
        rw [if_pos hall] at h
        simp at h
      · simp [embed_commit, extract_ok _ hk, hp] at h
        rw [if_neg hall, ht] at h
        simp at h
        exact h.symm
    · simp [embed_commit, extract_ok _ hk, hp] at h

/-- C1: the unknown-hash check of `embed_commit` is inverted in the code:
`find(|hash| !key_hashes.contains(hash)).ok_or(ContainsUnknownHashes)?`
errors exactly when `find` returns `None`, i.e. when every hash leaf IS
the hash of a key in the key set. Evaluating the translated code: a
script whose key-leaf set contains the target key and in which every hash
leaf (vacuously, there are none) equals the hash of a key fails with
`LockscriptContainsUnknownHashes`, while a script containing a hash leaf
equal to no key's hash succeeds — the opposite of the claim and of the
module's own tests. -/
theorem c1_unknown_hash_check_inverted :
    embed_commit sampleTweak samplePkh ⟨.pk 0, 0, 7⟩ sampleMsg
      = .error .lockscriptContainsUnknownHashes
  ∧ embed_commit sampleTweak samplePkh ⟨.and (.pk 0) (.pkH 5), 0, 7⟩ sampleMsg
      = .ok (.and (.pk 1) (.pkH 5)) :=
  ⟨rfl, rfl⟩

/-- C2: on the claim's example — a script that is a single key leaf
holding the target key, with no hash leaves — `embed_commit` does not
succeed: because of the inverted unknown-hash check it fails with
`LockscriptContainsUnknownHashes` (every hash leaf vacuously equals the
hash of a key, which the code treats as the failure case). -/
theorem c2_single_key_example_fails :
    embed_commit sampleTweak samplePkh ⟨.pk 10, 10, 42⟩ sampleMsg
      = .error .lockscriptContainsUnknownHashes :=
  rfl

/-- C3: soundness of verification by recomputation: whenever
`embed_commit` succeeds on a container and message, `verify` of the
returned commitment against the same container and message returns
`true`. -/
theorem c3_verify_soundness (t : TweakDelegate) (pkh : PublicKey → PubkeyHash)
    (c : LockscriptContainer) (msg : Msg) (out : LockScript)
    (h : embed_commit t pkh c msg = .ok out) :
    verify t pkh out c msg = true := by
  simp [verify, h]

/-- Witness for C3 at a concrete succeeding container. -/
theorem c3_verify_soundness_witness :
    embed_commit sampleTweak samplePkh ⟨.and (.pk 0) (.pkH 5), 0, 7⟩ sampleMsg
      = .ok (.and (.pk 1) (.pkH 5))
  ∧ verify sampleTweak samplePkh (.and (.pk 1) (.pkH 5))
      ⟨.and (.pk 0) (.pkH 5), 0, 7⟩ sampleMsg = true :=
  ⟨rfl, c3_verify_soundness sampleTweak samplePkh ⟨.and (.pk 0) (.pkH 5), 0, 7⟩
    sampleMsg (.and (.pk 1) (.pkH 5)) rfl⟩

/-- C4: a container whose script has an empty key-leaf set fails with
`LockscriptContainsNoKeys`, regardless of the script's hash-leaf contents
and of the tweak delegate — this error arises in the extraction step,
before every other check, so it takes priority over `KeyNotFound` and
over the unknown-hash check. -/
theorem c4_no_keys_rejection (t : TweakDelegate) (pkh : PublicKey → PubkeyHash)
    (c : LockscriptContainer) (msg : Msg) (h : keySet c.script = ∅) :
    embed_commit t pkh c msg = .error .lockscriptContainsNoKeys := by
  simp [embed_commit, extract_pubkey_hash_set, h]

/-- Witness for C4 at a script consisting of a single hash leaf. -/
theorem c4_no_keys_rejection_witness :
    keySet (.pkH 3) = ∅
  ∧ embed_commit sampleTweak samplePkh ⟨.pkH 3, 0, 7⟩ sampleMsg
      = .error .lockscriptContainsNoKeys :=
  ⟨rfl, c4_no_keys_rejection sampleTweak samplePkh ⟨.pkH 3, 0, 7⟩ sampleMsg rfl⟩

/-- C5: when `embed_commit` succeeds, the commitment script has exactly
the shape of the input script (operator structure and all non-key,
non-hash leaves unchanged), every key leaf equal to the target key — at
every occurrence — is replaced by the tweaked key, every hash leaf equal
to the target key's hash is replaced by the tweaked key's hash, and every
other key and hash leaf is unchanged. -/
theorem c5_structural_rewrite (t : TweakDelegate) (pkh : PublicKey → PubkeyHash)
    (c : LockscriptContainer) (msg : Msg) (tk : PublicKey) (out : LockScript)
    (ht : t c.pubkey (keySet c.script) c.tag msg = .ok tk)
    (h : embed_commit t pkh c msg = .ok out) :
    shape out = shape c.script
  ∧ keyLeaves out = (keyLeaves c.script).map (fun k => if k = c.pubkey then tk else k)
  ∧ hashLeaves out = (hashLeaves c.script).map
      (fun hh => if hh = pkh c.pubkey then pkh tk else hh) := by
  have hrep := embed_commit_ok_elim t pkh c msg tk out ht h
  subst hrep
  exact ⟨shape_replace _ _ _, keyLeaves_replace _ _ _, hashLeaves_replace _ _ _⟩

/-- Witness for C5 at a concrete succeeding container. -/
theorem c5_structural_rewrite_witness :
    sampleTweak 0 (keySet (.and (.pk 0) (.pkH 5))) 7 sampleMsg = .ok 1
  ∧ embed_commit sampleTweak samplePkh ⟨.and (.pk 0) (.pkH 5), 0, 7⟩ sampleMsg
      = .ok (.and (.pk 1) (.pkH 5))
  ∧ (shape (.and (.pk 1) (.pkH 5)) = shape (LockScript.and (.pk 0) (.pkH 5))
      ∧ keyLeaves (.and (.pk 1) (.pkH 5))
          = (keyLeaves (LockScript.and (.pk 0) (.pkH 5))).map
              (fun k => if k = 0 then 1 else k)
      ∧ hashLeaves (.and (.pk 1) (.pkH 5))
          = (hashLeaves (LockScript.and (.pk 0) (.pkH 5))).map
              (fun hh => if hh = samplePkh 0 then samplePkh 1 else hh)) :=
  ⟨rfl, rfl, c5_structural_rewrite sampleTweak samplePkh ⟨.and (.pk 0) (.pkH 5), 0, 7⟩
    sampleMsg 1 (.and (.pk 1) (.pkH 5)) rfl rfl⟩

/-- C6: validation strictly precedes tweak delegation: whichever
validation check fails — the extraction step (in particular the no-keys
rejection), the key-membership check, or the hash check — `embed_commit`
returns that error for EVERY tweak delegate, including one that always
fails, so the tweak is never computed and no partially rewritten result
is produced on failure. -/
theorem c6_validation_precedes_tweak (pkh : PublicKey → PubkeyHash)
    (c : LockscriptContainer) (msg : Msg) :
    (∀ e, extract_pubkey_hash_set c.script = .error e →
      ∀ t : TweakDelegate, embed_commit t pkh c msg = .error e)
  ∧ (∀ keys hashes, extract_pubkey_hash_set c.script = .ok (keys, hashes) →
      c.pubkey ∉ keys →
      ∀ t : TweakDelegate, embed_commit t pkh c msg = .error .lockscriptKeyNotFound)
  ∧ (∀ keys hashes, extract_pubkey_hash_set c.script = .ok (keys, hashes) →
      c.pubkey ∈ keys → (∀ hh ∈ hashes, hh ∈ keys.image pkh) →
      ∀ t : TweakDelegate,
        embed_commit t pkh c msg = .error .lockscriptContainsUnknownHashes) := by
  refine ⟨?_, ?_, ?_⟩
  · intro e he t
    simp [embed_commit, he]
  · intro keys hashes hok hnot t
    simp [embed_commit, hok, hnot]
  · intro keys hashes hok hin hall t
    have hall₂ : ∀ hh ∈ hashes, ∃ a ∈ keys, pkh a = hh := by
      intro hh hmem
      simpa [Finset.mem_image] using hall hh hmem
    simp [embed_commit, hok, hin]
    intro hh hmem hnone
    obtain ⟨a, ha, hpa⟩ := hall₂ hh hmem
    exact absurd hpa (hnone a ha)

/-- Witness for C6: a failing delegate is never consulted when the target
key is absent from a non-empty key set. -/
theorem c6_validation_precedes_tweak_witness :
    extract_pubkey_hash_set (.pk 1) = .ok ({1}, ∅)
  ∧ (0 : PublicKey) ∉ ({1} : Finset PublicKey)
  ∧ embed_commit failingTweak samplePkh ⟨.pk 1, 0, 7⟩ sampleMsg
      = .error .lockscriptKeyNotFound :=
  ⟨rfl, by decide,
    (c6_validation_precedes_tweak samplePkh ⟨.pk 1, 0, 7⟩ sampleMsg).2.1
      {1} ∅ rfl (by decide) failingTweak⟩

/-- C7: a container whose script has a non-empty key-leaf set that does
not contain the target key fails with `LockscriptKeyNotFound`. -/
theorem c7_key_not_found (t : TweakDelegate) (pkh : PublicKey → PubkeyHash)
    (c : LockscriptContainer) (msg : Msg)
    (hne : keySet c.script ≠ ∅) (hnot : c.pubkey ∉ keySet c.script) :
    embed_commit t pkh c msg = .error .lockscriptKeyNotFound := by
  simp [embed_commit, extract_ok _ hne, hnot]

/-- Witness for C7 at a one-key script not containing the target key. -/
theorem c7_key_not_found_witness :
    keySet (.pk 1) ≠ ∅
  ∧ (0 : PublicKey) ∉ keySet (.pk 1)
  ∧ embed_commit sampleTweak samplePkh ⟨.pk 1, 0, 7⟩ sampleMsg
      = .error .lockscriptKeyNotFound :=
  ⟨by decide, by decide,
    c7_key_not_found sampleTweak samplePkh ⟨.pk 1, 0, 7⟩ sampleMsg
      (by decide) (by decide)⟩

/-- C8: `reconstruct` fails with the structural-mismatch error
`InvalidProofStructure` exactly when the proof's `script_info` is not the
lockscript variant; on the lockscript variant it succeeds, returning the
container assembled from the proof's script, the proof's key and the
supplement as tag; and `deconstruct` always succeeds, returning the
lockscript-variant proof built from the container's script and key
together with the container's tag as supplement. -/
theorem c8_reconstruct_deconstruct (p : Proof) (s : Tag) (host : Option Unit) :
    (LockscriptContainer.reconstruct p s host = .error .invalidProofStructure ↔
      ∀ scr, p.script_info ≠ .lockScript scr)
  ∧ (∀ scr, p.script_info = .lockScript scr →
      LockscriptContainer.reconstruct p s host = .ok ⟨scr, p.pubkey, s⟩)
  ∧ (∀ c : LockscriptContainer,
      LockscriptContainer.deconstruct c = (⟨.lockScript c.script, c.pubkey⟩, c.tag)) := by
  refine ⟨⟨?_, ?_⟩, ?_, fun c => rfl⟩
  · intro hre scr hsi
    simp [LockscriptContainer.reconstruct, hsi] at hre
  · intro hnone
    cases hsi : p.script_info with
    | plainKey => simp [LockscriptContainer.reconstruct, hsi]
    | lockScript scr => exact absurd hsi (hnone scr)
  · intro scr hsi
    simp [LockscriptContainer.reconstruct, hsi]

/-- Witness for C8: the lockscript variant reconstructs, the other
variant is rejected, and deconstruction projects the witness. -/
theorem c8_reconstruct_deconstruct_witness :
    LockscriptContainer.reconstruct ⟨.lockScript (.pk 0), 3⟩ 7 none = .ok ⟨.pk 0, 3, 7⟩
  ∧ LockscriptContainer.reconstruct ⟨.plainKey, 3⟩ 7 none
      = .error .invalidProofStructure
  ∧ LockscriptContainer.deconstruct ⟨.pk 0, 3, 7⟩ = (⟨.lockScript (.pk 0), 3⟩, 7) :=
  ⟨(c8_reconstruct_deconstruct ⟨.lockScript (.pk 0), 3⟩ 7 none).2.1 (.pk 0) rfl,
   (c8_reconstruct_deconstruct ⟨.plainKey, 3⟩ 7 none).1.mpr (fun _ h => nomatch h),
   (c8_reconstruct_deconstruct ⟨.lockScript (.pk 0), 3⟩ 7 none).2.2 ⟨.pk 0, 3, 7⟩⟩

/-- C9: `embed_commit` is a deterministic function of its arguments
(given a deterministic tweak delegate): two calls on equal containers and
equal messages yield identical commitments; the substitution counter of
the Rust code is a call-local accumulator that does not influence the
result, so the translation carries no state between calls. -/
theorem c9_determinism (t : TweakDelegate) (pkh : PublicKey → PubkeyHash)
    (c₁ c₂ : LockscriptContainer) (msg₁ msg₂ : Msg) (hc : c₁ = c₂) (hm : msg₁ = msg₂) :
    embed_commit t pkh c₁ msg₁ = embed_commit t pkh c₂ msg₂ := by
  rw [hc, hm]

/-- Witness for C9 at a concrete container and message. -/
theorem c9_determinism_witness :
    (⟨.and (.pk 0) (.pkH 5), 0, 7⟩ : LockscriptContainer)
      = ⟨.and (.pk 0) (.pkH 5), 0, 7⟩
  ∧ embed_commit sampleTweak samplePkh ⟨.and (.pk 0) (.pkH 5), 0, 7⟩ sampleMsg
      = embed_commit sampleTweak samplePkh ⟨.and (.pk 0) (.pkH 5), 0, 7⟩ sampleMsg :=
  ⟨rfl, c9_determinism sampleTweak samplePkh ⟨.and (.pk 0) (.pkH 5), 0, 7⟩
    ⟨.and (.pk 0) (.pkH 5), 0, 7⟩ sampleMsg sampleMsg rfl rfl⟩

/-- C10: deconstructing a container and reconstructing from the resulting
proof and supplement (under any host value) returns the original
container, and `to_proof` and `into_proof` both equal the proof component
produced by `deconstruct`. -/
theorem c10_roundtrip (c : LockscriptContainer) (p : Proof) (s : Tag) (host : Option Unit)
    (h : LockscriptContainer.deconstruct c = (p, s)) :
    LockscriptContainer.reconstruct p s host = .ok c
  ∧ LockscriptContainer.to_proof c = p
  ∧ LockscriptContainer.into_proof c = p := by
  simp only [LockscriptContainer.deconstruct, Prod.mk.injEq] at h
  obtain ⟨hp, hs⟩ := h
  subst hp
  subst hs
  exact ⟨rfl, rfl, rfl⟩

/-- Witness for C10 at a concrete container. -/
theorem c10_roundtrip_witness :
    LockscriptContainer.deconstruct ⟨.pk 2, 4, 9⟩ = (⟨.lockScript (.pk 2), 4⟩, 9)
  ∧ (LockscriptContainer.reconstruct ⟨.lockScript (.pk 2), 4⟩ 9 none = .ok ⟨.pk 2, 4, 9⟩
      ∧ LockscriptContainer.to_proof ⟨.pk 2, 4, 9⟩ = ⟨.lockScript (.pk 2), 4⟩
      ∧ LockscriptContainer.into_proof ⟨.pk 2, 4, 9⟩ = ⟨.lockScript (.pk 2), 4⟩) :=
  ⟨rfl, c10_roundtrip ⟨.pk 2, 4, 9⟩ ⟨.lockScript (.pk 2), 4⟩ 9 none rfl⟩

end Lnpbp2
